import Mathlib

/-!
Shallow embedding of `src/clients/tcp_speedtest_net.rs` (bim-core).

Modelling choices:
* URL parsing and DNS resolution are external collaborators; `build` takes the
  parse outcome (host / port options) and the resolver outcome (an address
  list, or `none` for a resolution error) as inputs.
* The concurrent load engine is abstracted to the sequence of sampling-tick
  observations the coordinator makes: for each tick, the microseconds elapsed
  since the previous poll (`time_used`) and the growth of the aggregate
  counter sum since the previous poll (`delta`).  Per-worker counters are only
  ever incremented (`*ct += ...`), so the aggregate sum is monotone and
  `current = last + delta` with `delta : ℕ` is exact.
* `f64` values (speeds, latency, jitter) are modelled as exact rationals.
* A `usize` subtraction that underflows (and the resulting out-of-bounds
  array read) aborts the program in Rust; a function that can hit it
  returns an `Option`, with `none` for the abort.
-/

namespace BimCore

/-- Address family of a resolved socket address. -/
inductive IpVersion where
  | v4
  | v6
deriving DecidableEq, Repr

/-- A resolved socket address: its family plus an abstract identity
distinguishing distinct candidates (the core never inspects the bytes). -/
structure SockAddr where
  ip : IpVersion
  id : Nat
deriving DecidableEq, Repr

/-- `SocketAddr::is_ipv6`. -/
def SockAddr.is_ipv6 (a : SockAddr) : Bool := a.ip = IpVersion.v6

/-- `SocketAddr::is_ipv4`. -/
def SockAddr.is_ipv4 (a : SockAddr) : Bool := a.ip = IpVersion.v4

/-- The client struct `SpeedtestNetTcpClient` with its result fields. -/
structure SpeedtestNetTcpClient where
  multi_thread : Bool
  address : SockAddr
  upload : ℚ
  upload_status : String
  download : ℚ
  download_status : String
  latency : ℚ
  jitter : ℚ
deriving DecidableEq, Repr

/-- Outcome of `Url::parse` plus the host/port accessors used by `build`:
`host_str()` and `port_or_known_default()` may each be absent. -/
structure UrlParts where
  host : Option String
  port : Option Nat
deriving DecidableEq, Repr

/-- The address-selection loop in `build`: iterate over the resolved
candidates and overwrite `address` with every candidate whose family matches
the request, so the last match wins. -/
def selectAddress (ipv6 : Bool) (addresses : List SockAddr) : Option SockAddr :=
  addresses.foldl
    (fun address addr =>
      if (addr.is_ipv6 && ipv6) || (addr.is_ipv4 && !ipv6) then some addr else address)
    none

/-- `SpeedtestNetTcpClient::build`.  `parsed` is the outcome of `Url::parse`
(`none` on parse error), `resolved` the outcome of `to_socket_addrs`
(`none` on resolver error). -/
def build (parsed : Option UrlParts) (resolved : Option (List SockAddr))
    (ipv6 : Bool) (multi_thread : Bool) : Option SpeedtestNetTcpClient :=
  match parsed with
  | none => none
  | some url =>
    match url.host with
    | none => none
    | some _ =>
      match url.port with
      | none => none
      | some _ =>
        match resolved with
        | none => none
        | some addresses =>
          match selectAddress ipv6 addresses with
          | none => none
          | some address =>
            some { multi_thread := multi_thread
                   address := address
                   upload := 0
                   upload_status := "取消"
                   download := 0
                   download_status := "取消"
                   latency := 0
                   jitter := 0 }

/-- Family filter used by the selection loop. -/
def familyMatches (ipv6 : Bool) (a : SockAddr) : Bool :=
  (a.is_ipv6 && ipv6) || (a.is_ipv4 && !ipv6)

theorem selectAddress_foldl_eq (ipv6 : Bool) :
    ∀ (l : List SockAddr) (acc : Option SockAddr),
      l.foldl
        (fun address addr =>
          if (addr.is_ipv6 && ipv6) || (addr.is_ipv4 && !ipv6) then some addr else address)
        acc
      = ((l.reverse.find? (familyMatches ipv6)).rec acc some) := by
  intro l
  induction l with
  | nil => intro acc; rfl
  | cons a l ih =>
    intro acc
    rw [List.foldl_cons, ih, List.reverse_cons, List.find?_append]
    cases h : l.reverse.find? (familyMatches ipv6) with
    | some b => rfl
    | none =>
      simp only [Option.none_orElse]
      show (if familyMatches ipv6 a = true then some a else acc)
          = ((List.find? (familyMatches ipv6) [a]).rec acc some)
      cases hm : familyMatches ipv6 a with
      | true => simp [List.find?, hm]
      | false => simp [List.find?, hm]

/-- `selectAddress` returns the last family-matching candidate in resolution
order (the first match of the reversed list), and `none` when there is none. -/
theorem selectAddress_eq_last_match (ipv6 : Bool) (l : List SockAddr) :
    selectAddress ipv6 l = l.reverse.find? (familyMatches ipv6) := by
  rw [selectAddress, selectAddress_foldl_eq]
  cases l.reverse.find? (familyMatches ipv6) <;> rfl

/-! ## The sampling loop of `run_load` -/

/-- One observed sampling tick of the coordinator loop in `run_load`:
`time_used` is `time_passed - last_time` (microseconds since the previous
poll, at least 500 000 because of the `sleep(500ms)`), and `delta` is
`current - last`, the growth of the aggregate counter sum since the previous
poll (nonnegative because every worker counter is only ever incremented). -/
structure Tick where
  time_used : ℕ
  delta : ℕ
deriving DecidableEq, Repr

/-- Coordinator loop state in `run_load`: `last` is the aggregate counter
total at the previous tick, `wait` the stall budget (an `i32`, decremented
with no clamp), `results` the recorded instantaneous speeds in order
(`results[0..index]` of the Rust array, as a list). -/
structure LoadState where
  last : ℕ
  wait : ℤ
  results : List ℚ
deriving DecidableEq, Repr

/-- One iteration of the `while time_passed < 14_000_000` loop: read the
aggregate total, decrement `wait` when it did not change, record the
instantaneous speed `(current - last) * 8 / time_used`. -/
def loadTick (st : LoadState) (t : Tick) : LoadState :=
  let current := st.last + t.delta
  { last := current
    wait := if st.last = current then st.wait - 1 else st.wait
    results := st.results ++ [(((current - st.last) * 8 : ℕ) : ℚ) / (t.time_used : ℚ)] }

/-- The whole sampling loop, over the observed tick sequence, starting from
`last = 0`, `wait = 6`, no recorded samples. -/
def runSampling (ticks : List Tick) : LoadState :=
  ticks.foldl loadTick { last := 0, wait := 6, results := [] }

/-- A tick sequence a real run can produce: every sleep lasts at least
500 ms, the loop keeps running while `time_passed < 14_000_000`, and stops
as soon as that bound is reached (so there is at least one tick). -/
def ValidTicks (ticks : List Tick) : Prop :=
  ticks ≠ [] ∧
  (∀ t ∈ ticks, 500000 ≤ t.time_used) ∧
  (∀ k < ticks.length - 1, ((ticks.take (k + 1)).map Tick.time_used).sum < 14000000) ∧
  14000000 ≤ (ticks.map Tick.time_used).sum

/-- The reduction `for i in index - 20..index { all += results[i] }` followed
by `all / 20.0`.  `index - 20` is a `usize` subtraction: when fewer than 20
samples were recorded it underflows, which aborts the program (overflow panic
in a debug build, a wrapped range and an out-of-bounds `results[i]` panic in
a release build); that abort is `none`. -/
def reduceFinalSpeed (results : List ℚ) : Option ℚ :=
  if results.length < 20 then none
  else some ((results.drop (results.length - 20)).sum / 20)

/-- Status string computed at the end of `run_load` from the stall budget
`wait` and `last`, which after the loop holds the final aggregate counter
total.  `"失败"` = Failed, `"断流"` = Interrupted, `"正常"` = Normal. -/
def classifyStatus (wait : ℤ) (last : ℕ) : String :=
  if wait ≤ 0 then
    if last < 200 then "失败" else "断流"
  else "正常"

/-- `run_load`.  `load` is the direction byte (`0` = upload, anything else =
download); `ticks` the observed sampling ticks.  Returns the updated client
and the function's return value (its Rust type is `Result<bool, _>`, embedded
as `Except String Bool`); `none` is the reduction abort. -/
def run_load (c : SpeedtestNetTcpClient) (load : ℕ) (ticks : List Tick) :
    Option (SpeedtestNetTcpClient × Except String Bool) :=
  let st := runSampling ticks
  match reduceFinalSpeed st.results with
  | none => none
  | some final_speed =>
    let status := classifyStatus st.wait st.last
    let c' :=
      match load with
      | 0 => { c with upload := final_speed, upload_status := status }
      | _ => { c with download := final_speed, download_status := status }
    some (c', Except.ok true)

/-- `Client::download`: `run_load(1)`, mapping `Ok(_)` to `true` and
`Err(_)` to `false`. -/
def download (c : SpeedtestNetTcpClient) (ticks : List Tick) :
    Option (SpeedtestNetTcpClient × Bool) :=
  match run_load c 1 ticks with
  | some (c', Except.ok _) => some (c', true)
  | some (c', Except.error _) => some (c', false)
  | none => none

/-- `Client::upload`: `run_load(0)`, mapping `Ok(_)` to `true` and
`Err(_)` to `false`. -/
def upload (c : SpeedtestNetTcpClient) (ticks : List Tick) :
    Option (SpeedtestNetTcpClient × Bool) :=
  match run_load c 0 ticks with
  | some (c', Except.ok _) => some (c', true)
  | some (c', Except.error _) => some (c', false)
  | none => none

/-! Basic accounting lemmas about the sampling loop. -/

theorem runSampling_foldl (ticks : List Tick) :
    ∀ st : LoadState,
      (ticks.foldl loadTick st).last = st.last + (ticks.map Tick.delta).sum ∧
      (ticks.foldl loadTick st).wait
        = st.wait - (ticks.countP (fun t => t.delta = 0) : ℤ) ∧
      (ticks.foldl loadTick st).results.length
        = st.results.length + ticks.length := by
  induction ticks with
  | nil => intro st; simp
  | cons t ticks ih =>
    intro st
    obtain ⟨h1, h2, h3⟩ := ih (loadTick st t)
    refine ⟨?_, ?_, ?_⟩
    · rw [List.foldl_cons, h1]
      show st.last + t.delta + (ticks.map Tick.delta).sum = _
      simp [Nat.add_assoc]
    · rw [List.foldl_cons, h2]
      show (if st.last = st.last + t.delta then st.wait - 1 else st.wait) - _ = _
      rcases Nat.eq_zero_or_pos t.delta with hd | hd
      · rw [if_pos (by omega), List.countP_cons_of_pos _ _ (by simp [hd])]
        push_cast
        ring
      · rw [if_neg (by omega), List.countP_cons_of_neg _ _ (by simp; omega)]
    · rw [List.foldl_cons, h3]
      simp [loadTick, List.length_append]
      omega

/-- After the loop, `last` is the final aggregate total: the sum of all
per-tick byte deltas. -/
theorem runSampling_last (ticks : List Tick) :
    (runSampling ticks).last = (ticks.map Tick.delta).sum := by
  have h := (runSampling_foldl ticks { last := 0, wait := 6, results := [] }).1
  simpa [runSampling] using h

/-- After the loop, the stall budget is 6 minus the number of ticks whose
aggregate total did not increase. -/
theorem runSampling_wait (ticks : List Tick) :
    (runSampling ticks).wait = 6 - (ticks.countP (fun t => t.delta = 0) : ℤ) := by
  have h := (runSampling_foldl ticks { last := 0, wait := 6, results := [] }).2.1
  simpa [runSampling] using h

/-- The loop records exactly one sample per tick. -/
theorem runSampling_length (ticks : List Tick) :
    (runSampling ticks).results.length = ticks.length := by
  have h := (runSampling_foldl ticks { last := 0, wait := 6, results := [] }).2.2
  simpa [runSampling] using h

/-! ## The ping prober -/

/-- One ping attempt as the environment resolves it: whether
`TcpStream::connect_timeout` returned `Ok`, and the elapsed microseconds
`now.elapsed().as_micros()` measured around the call. -/
structure PingAttempt where
  connect_ok : Bool
  elapsed : ℕ
deriving DecidableEq, Repr

/-- `request_tcp_ping`: the elapsed microseconds on connect success, `0` on
failure. -/
def request_tcp_ping (a : PingAttempt) : ℕ :=
  if a.connect_ok then a.elapsed else 0

/-- State of the sampling loop in `ping`: the `pings` array written so far
(slot `count` gets the sample when it is positive and keeps its initial `0`
otherwise) and the running minimum `ping_min`, initialised to `10000000`. -/
structure PingScan where
  pings : List ℕ
  ping_min : ℕ
deriving DecidableEq, Repr

/-- One iteration of the `while count < 6` loop in `ping` (the loop's local
`ping` is inlined as `request_tcp_ping a`): when the sample is positive it is
written into the array and may lower `ping_min`; otherwise slot `count`
keeps its initial `0` and `ping_min` is untouched. -/
def pingStep (st : PingScan) (a : PingAttempt) : PingScan :=
  if 0 < request_tcp_ping a then
    { pings := st.pings ++ [request_tcp_ping a]
      ping_min :=
        if request_tcp_ping a < st.ping_min then request_tcp_ping a else st.ping_min }
  else
    { pings := st.pings ++ [0], ping_min := st.ping_min }

/-- `Client::ping`.  `attempts` are the six attempts' outcomes (the loop body
runs once per attempt).  Returns the updated client and the `bool` result.
The subtraction `p - ping_min` in the jitter loop is on `u128`; it never
underflows because `ping_min` is a lower bound of every positive sample, so
truncated `ℕ` subtraction agrees with it. -/
def ping (c : SpeedtestNetTcpClient) (attempts : List PingAttempt) :
    SpeedtestNetTcpClient × Bool :=
  let scan := attempts.foldl pingStep { pings := [], ping_min := 10000000 }
  if scan.pings = [0, 0, 0, 0, 0, 0] then
    ({ c with latency := 0, jitter := 0 }, false)
  else
    let jitter_all :=
      scan.pings.foldl (fun acc p => if 0 < p then acc + (p - scan.ping_min) else acc) 0
    ({ c with
        latency := (scan.ping_min : ℚ) / 1000
        jitter := (jitter_all : ℚ) / 5000 },
      true)

/-- The samples the six attempts produce, in order. -/
def pingSamples (attempts : List PingAttempt) : List ℕ :=
  attempts.map request_tcp_ping

/-- Claim-side definition: the minimum over the non-zero samples
(`0` when every sample is zero). -/
def minNonZero (samples : List ℕ) : ℕ :=
  match samples.filter (fun p => 0 < p) with
  | [] => 0
  | p :: rest => rest.foldl min p

/-! Accounting lemmas for the ping loop. -/

theorem ite_lt_eq_min (p m : ℕ) : (if p < m then p else m) = min p m := by
  rcases Nat.lt_or_ge p m with h | h
  · rw [if_pos h, Nat.min_eq_left (Nat.le_of_lt h)]
  · rw [if_neg (Nat.not_lt.mpr h), Nat.min_eq_right h]

theorem pingStep_pings (st : PingScan) (a : PingAttempt) :
    (pingStep st a).pings = st.pings ++ [request_tcp_ping a] := by
  by_cases hp : 0 < request_tcp_ping a
  · rw [pingStep, if_pos hp]
  · have hz : request_tcp_ping a = 0 := by omega
    rw [pingStep, if_neg hp, hz]

theorem pingStep_min (st : PingScan) (a : PingAttempt) :
    (pingStep st a).ping_min
      = if 0 < request_tcp_ping a then min (request_tcp_ping a) st.ping_min
        else st.ping_min := by
  by_cases hp : 0 < request_tcp_ping a
  · rw [pingStep, if_pos hp, if_pos hp]
    exact ite_lt_eq_min _ _
  · rw [pingStep, if_neg hp, if_neg hp]

theorem pingScan_foldl (attempts : List PingAttempt) :
    ∀ st : PingScan,
      (attempts.foldl pingStep st).pings = st.pings ++ pingSamples attempts ∧
      (attempts.foldl pingStep st).ping_min
        = (pingSamples attempts).foldl
            (fun m p => if 0 < p then min p m else m) st.ping_min := by
  induction attempts with
  | nil => intro st; simp [pingSamples]
  | cons a attempts ih =>
    intro st
    obtain ⟨h1, h2⟩ := ih (pingStep st a)
    constructor
    · rw [List.foldl_cons, h1, pingStep_pings]
      simp [pingSamples]
    · rw [List.foldl_cons, h2, pingStep_min]
      rw [show pingSamples (a :: attempts) = request_tcp_ping a :: pingSamples attempts
          from rfl, List.foldl_cons]

/-- Folding `min` from the left commutes with peeling the seed. -/
theorem foldl_min_comm (l : List ℕ) :
    ∀ a b : ℕ, l.foldl min (min a b) = min a (l.foldl min b) := by
  induction l with
  | nil => intro a b; rfl
  | cons c l ih =>
    intro a b
    rw [List.foldl_cons, List.foldl_cons, Nat.min_assoc, ih]

/-- The running minimum the loop computes is the minimum over the positive
samples, floored at the initial value `10000000`. -/
theorem pingScan_min_eq (attempts : List PingAttempt)
    (h : ∃ s ∈ pingSamples attempts, 0 < s) :
    (attempts.foldl pingStep { pings := [], ping_min := 10000000 }).ping_min
      = min 10000000 (minNonZero (pingSamples attempts)) := by
  rw [(pingScan_foldl attempts _).2]
  have key : ∀ (l : List ℕ) (m : ℕ),
      l.foldl (fun m p => if 0 < p then min p m else m) m
        = (l.filter (fun p => 0 < p)).foldl (fun m p => min p m) m := by
    intro l
    induction l with
    | nil => intro m; rfl
    | cons p l ih =>
      intro m
      by_cases hp : 0 < p
      · rw [List.foldl_cons, if_pos hp, List.filter_cons_of_pos (by simpa using hp),
          List.foldl_cons, ih]
      · rw [List.foldl_cons, if_neg hp, List.filter_cons_of_neg (by simpa using hp), ih]
  rw [key]
  obtain ⟨s, hs, hpos⟩ := h
  have hne : (pingSamples attempts).filter (fun p => 0 < p) ≠ [] := by
    intro hnil
    have hmem : s ∈ (pingSamples attempts).filter (fun p => 0 < p) :=
      List.mem_filter.mpr ⟨hs, by simpa using hpos⟩
    rw [hnil] at hmem
    exact absurd hmem (List.not_mem_nil s)
  have comm : ∀ (l : List ℕ) (m : ℕ),
      l.foldl (fun m p => min p m) m = l.foldl min m := by
    intro l
    induction l with
    | nil => intro m; rfl
    | cons q l ih => intro m; rw [List.foldl_cons, List.foldl_cons, Nat.min_comm, ih]
  rw [minNonZero]
  cases hf : (pingSamples attempts).filter (fun p => 0 < p) with
  | nil => exact absurd hf hne
  | cons p rest =>
    rw [List.foldl_cons, comm, Nat.min_comm p 10000000, foldl_min_comm]

/-- The status a run over `ticks` is classified with. -/
def runStatus (ticks : List Tick) : String :=
  classifyStatus (runSampling ticks).wait (runSampling ticks).last

/-- The final speed a completed run over `ticks` stores (the value inside
`reduceFinalSpeed`'s non-abort branch). -/
def finalSpeedOf (ticks : List Tick) : ℚ :=
  ((runSampling ticks).results.drop ((runSampling ticks).results.length - 20)).sum / 20

/-- Anatomy of a completed `run_load`: it completed exactly when the
reduction did not abort, its return value is `Ok(true)`, and the client
update writes the final speed and the status into the fields of the chosen
direction. -/
theorem run_load_eq (c : SpeedtestNetTcpClient) (load : ℕ) (ticks : List Tick)
    (c' : SpeedtestNetTcpClient) (r : Except String Bool)
    (h : run_load c load ticks = some (c', r)) :
    ∃ fs, reduceFinalSpeed (runSampling ticks).results = some fs ∧
      r = Except.ok true ∧
      c' = (match load with
            | 0 => { c with upload := fs, upload_status := runStatus ticks }
            | _ => { c with download := fs, download_status := runStatus ticks }) := by
  rw [run_load] at h
  rcases load with _ | n <;>
  · cases hred : reduceFinalSpeed (runSampling ticks).results with
    | none => rw [hred] at h; cases h
    | some fs =>
      rw [hred] at h
      simp only [Option.some.injEq, Prod.mk.injEq] at h
      exact ⟨fs, rfl, h.2.symm, h.1.symm⟩

/-! ## Concrete fixtures -/

/-- A concrete freshly-built client, as `build` returns it. -/
def testClient : SpeedtestNetTcpClient :=
  { multi_thread := false
    address := { ip := IpVersion.v4, id := 0 }
    upload := 0
    upload_status := "取消"
    download := 0
    download_status := "取消"
    latency := 0
    jitter := 0 }

/-! ## Claims -/

/-- C3: for every URL whose host resolves to at least one address of the
requested family, `build` succeeds and the stored address is the last
matching candidate in resolution order (the first match of the reversed
candidate list), deterministically (`build` is a function of its inputs). -/
theorem C3_build_selects_last_match (host : String) (port : Nat)
    (addresses : List SockAddr) (ipv6 multi_thread : Bool)
    (h : ∃ a ∈ addresses, familyMatches ipv6 a = true) :
    ∃ c, build (some { host := some host, port := some port }) (some addresses)
          ipv6 multi_thread = some c ∧
        some c.address = addresses.reverse.find? (familyMatches ipv6) := by
  have hfind : (addresses.reverse.find? (familyMatches ipv6)).isSome := by
    rw [List.find?_isSome]
    obtain ⟨a, ha, hm⟩ := h
    exact ⟨a, List.mem_reverse.mpr ha, hm⟩
  obtain ⟨a, ha⟩ := Option.isSome_iff_exists.mp hfind
  have hsel : selectAddress ipv6 addresses = some a := by
    rw [selectAddress_eq_last_match]; exact ha
  refine ⟨{ multi_thread := multi_thread, address := a, upload := 0,
            upload_status := "取消", download := 0, download_status := "取消",
            latency := 0, jitter := 0 }, ?_, ?_⟩
  · simp only [build, hsel]
  · rw [ha]

/-- Witness for C3 at a concrete input: two IPv4 candidates, the second
(last) is selected rather than the first. -/
theorem C3_witness :
    (∃ a ∈ [SockAddr.mk IpVersion.v4 0, SockAddr.mk IpVersion.v6 1,
            SockAddr.mk IpVersion.v4 2], familyMatches false a = true) ∧
    (∃ c, build (some { host := some "speedtest.example", port := some 8080 })
          (some [SockAddr.mk IpVersion.v4 0, SockAddr.mk IpVersion.v6 1,
                 SockAddr.mk IpVersion.v4 2]) false false = some c ∧
        some c.address
          = [SockAddr.mk IpVersion.v4 0, SockAddr.mk IpVersion.v6 1,
             SockAddr.mk IpVersion.v4 2].reverse.find? (familyMatches false)) ∧
    [SockAddr.mk IpVersion.v4 0, SockAddr.mk IpVersion.v6 1,
     SockAddr.mk IpVersion.v4 2].reverse.find? (familyMatches false)
      = some (SockAddr.mk IpVersion.v4 2) :=
  ⟨by decide,
   C3_build_selects_last_match "speedtest.example" 8080 _ false false (by decide),
   by decide⟩

/-- C7: `build` fails (returns `none`) when the URL does not parse, when the
host or port accessor yields nothing, when resolution fails, and when no
candidate matches the requested family; on success every numeric result
field is `0` and both status fields are the sentinel `"取消"`, which differs
from the Normal/Failed/Interrupted statuses. -/
theorem C7_build_failure_modes_and_init :
    (∀ resolved ipv6 multi_thread, build none resolved ipv6 multi_thread = none) ∧
    (∀ port resolved ipv6 multi_thread,
      build (some { host := none, port := port }) resolved ipv6 multi_thread = none) ∧
    (∀ host resolved ipv6 multi_thread,
      build (some { host := some host, port := none }) resolved ipv6 multi_thread
        = none) ∧
    (∀ host port ipv6 multi_thread,
      build (some { host := some host, port := some port }) none ipv6 multi_thread
        = none) ∧
    (∀ host port addresses ipv6 multi_thread,
      (∀ a ∈ addresses, familyMatches ipv6 a = false) →
      build (some { host := some host, port := some port }) (some addresses)
        ipv6 multi_thread = none) ∧
    (∀ parsed resolved ipv6 multi_thread c,
      build parsed resolved ipv6 multi_thread = some c →
      c.upload = 0 ∧ c.download = 0 ∧ c.latency = 0 ∧ c.jitter = 0 ∧
        c.upload_status = "取消" ∧ c.download_status = "取消") ∧
    ("取消" ≠ "正常" ∧ "取消" ≠ "失败" ∧ "取消" ≠ "断流") := by
  refine ⟨?_, ?_, ?_, ?_, ?_, ?_, by decide⟩
  · intro resolved ipv6 multi_thread; rfl
  · intro port resolved ipv6 multi_thread; rfl
  · intro host resolved ipv6 multi_thread; rfl
  · intro host port ipv6 multi_thread; rfl
  · intro host port addresses ipv6 multi_thread hall
    have hsel : selectAddress ipv6 addresses = none := by
      rw [selectAddress_eq_last_match, List.find?_eq_none]
      intro a ha
      simp [hall a (List.mem_reverse.mp ha)]
    simp only [build, hsel]
  · intro parsed resolved ipv6 multi_thread c hc
    rcases parsed with _ | ⟨host, port⟩
    · exact absurd hc (by simp [build])
    · rcases host with _ | host
      · exact absurd hc (by simp [build])
      · rcases port with _ | port
        · exact absurd hc (by simp [build])
        · rcases resolved with _ | addresses
          · exact absurd hc (by simp [build])
          · cases hsel : selectAddress ipv6 addresses with
            | none => rw [build] at hc; rw [hsel] at hc; cases hc
            | some a =>
              rw [build] at hc; rw [hsel] at hc
              obtain rfl := Option.some.inj hc
              exact ⟨rfl, rfl, rfl, rfl, rfl, rfl⟩

/-- Witness for C7: the family-mismatch clause and the success clause at
concrete inputs. -/
theorem C7_witness :
    build (some { host := some "speedtest.example", port := some 8080 })
        (some [SockAddr.mk IpVersion.v6 7]) false true = none ∧
    ((testClient).upload = 0 ∧ (testClient).download = 0 ∧ (testClient).latency = 0 ∧
      (testClient).jitter = 0 ∧ (testClient).upload_status = "取消" ∧
      (testClient).download_status = "取消") :=
  ⟨C7_build_failure_modes_and_init.2.2.2.2.1 "speedtest.example" 8080
      [SockAddr.mk IpVersion.v6 7] false true (by decide),
   C7_build_failure_modes_and_init.2.2.2.2.2.1
      (some { host := some "h", port := some 80 })
      (some [SockAddr.mk IpVersion.v4 0]) false false testClient (by decide)⟩

/-- The status classification exactly as claim C1 words it: the second
argument is the final tick's raw byte delta (instead of `last`, which after
the loop holds the final aggregate cumulative total). -/
def claimStatusFromDelta (wait : ℤ) (finalDelta : ℕ) : String :=
  if wait ≤ 0 then
    if finalDelta < 200 then "失败" else "断流"
  else "正常"

/-- A run whose first tick transfers 1000 bytes and then stalls for the
remaining 27 ticks of the 14 s window. -/
def stallTicks : List Tick :=
  Tick.mk 500000 1000 :: List.replicate 27 (Tick.mk 500000 0)

/-- C1 counterexample: on `stallTicks` the stall budget is exhausted and the
final tick's raw byte delta is 0 < 200, so the claim as stated classifies
the run Failed (`"失败"`); the code classifies it Interrupted (`"断流"`),
because the `last` it tests is the cumulative total (1000 ≥ 200), not the
final delta. -/
theorem C1_counterexample :
    ValidTicks stallTicks ∧
    (runSampling stallTicks).wait ≤ 0 ∧
    stallTicks.getLast? = some (Tick.mk 500000 0) ∧
    claimStatusFromDelta (runSampling stallTicks).wait 0 = "失败" ∧
    runStatus stallTicks = "断流" ∧
    "断流" ≠ "失败" ∧
    (∃ c' r, run_load testClient 1 stallTicks = some (c', r) ∧
      c'.download_status = "断流") :=
  ⟨by unfold ValidTicks; decide, by decide, by decide, by decide, by decide, by decide,
   ⟨{ testClient with download := finalSpeedOf stallTicks, download_status := "断流" },
    Except.ok true, by rfl, rfl⟩⟩

/-- C1 amended: for every completed load run, the stall budget ends at 6
minus the number of ticks whose aggregate total did not increase (no clamp),
`last` ends as the final aggregate cumulative byte total, and the stored
status is Failed exactly when the budget is ≤ 0 and that final total is
< 200 bytes, Interrupted exactly when the budget is ≤ 0 and the total is
≥ 200, and Normal otherwise. -/
theorem C1_amended_status (c : SpeedtestNetTcpClient) (load : ℕ) (ticks : List Tick)
    (c' : SpeedtestNetTcpClient) (r : Except String Bool)
    (h : run_load c load ticks = some (c', r)) :
    (runSampling ticks).wait = 6 - (ticks.countP (fun t => t.delta = 0) : ℤ) ∧
    (runSampling ticks).last = (ticks.map Tick.delta).sum ∧
    (load = 0 → c'.upload_status = runStatus ticks) ∧
    (load ≠ 0 → c'.download_status = runStatus ticks) ∧
    (runStatus ticks = "失败" ↔
      (runSampling ticks).wait ≤ 0 ∧ (runSampling ticks).last < 200) ∧
    (runStatus ticks = "断流" ↔
      (runSampling ticks).wait ≤ 0 ∧ 200 ≤ (runSampling ticks).last) ∧
    (runStatus ticks = "正常" ↔ 0 < (runSampling ticks).wait) := by
  obtain ⟨fs, hred, hr, hc'⟩ := run_load_eq c load ticks c' r h
  refine ⟨runSampling_wait ticks, runSampling_last ticks, ?_, ?_, ?_⟩
  · intro h0; subst h0; rw [hc']
  · intro hne
    rcases load with _ | n
    · exact absurd rfl hne
    · rw [hc']; rfl
  · rw [runStatus, classifyStatus]
    by_cases hw : (runSampling ticks).wait ≤ 0
    · by_cases hl : (runSampling ticks).last < 200
      · rw [if_pos hw, if_pos hl]
        exact ⟨⟨fun _ => ⟨hw, hl⟩, fun _ => rfl⟩,
               ⟨fun hx => absurd hx (by decide), fun hx => absurd hx.2 (by omega)⟩,
               ⟨fun hx => absurd hx (by decide), fun hx => absurd hx (by omega)⟩⟩
      · rw [if_pos hw, if_neg hl]
        exact ⟨⟨fun hx => absurd hx (by decide), fun hx => absurd hx.2 hl⟩,
               ⟨fun _ => ⟨hw, by omega⟩, fun _ => rfl⟩,
               ⟨fun hx => absurd hx (by decide), fun hx => absurd hx (by omega)⟩⟩
    · rw [if_neg hw]
      exact ⟨⟨fun hx => absurd hx (by decide), fun hx => absurd hx.1 hw⟩,
             ⟨fun hx => absurd hx (by decide), fun hx => absurd hx.1 hw⟩,
             ⟨fun _ => by omega, fun _ => rfl⟩⟩

/-- A run of 20 slow ticks (700 ms each) during which no byte ever moves. -/
def steadyTicks : List Tick := List.replicate 20 (Tick.mk 700000 0)

/-- Witness for C1 amended: the Failed iff, instantiated on a fully stalled
20-tick run. -/
theorem C1_witness :
    runStatus steadyTicks = "失败" ↔
      (runSampling steadyTicks).wait ≤ 0 ∧ (runSampling steadyTicks).last < 200 :=
  (C1_amended_status testClient 1 steadyTicks
      { testClient with download := finalSpeedOf steadyTicks, download_status := "失败" }
      (Except.ok true) (by rfl)).2.2.2.2.1

/-- A run whose single sleep covers the whole 14 s window: only one sample
is collected. -/
def shortRunTicks : List Tick := [Tick.mk 14000000 1000]

/-- C2, code bug: a valid run that collects a single sample (one 14 s tick)
makes the reduction `for i in index - 20..index` compute `index - 20` with
`index = 1`, a `usize` subtraction that overflows.  With overflow checks
(the debug default) the program panics there; the run does fail, contrary to
the claim.  (With wrapping arithmetic the range is empty and the mean is
silently 0.)  The model returns `none` for the abort. -/
theorem C2_underflow_abort :
    ValidTicks shortRunTicks ∧
    (runSampling shortRunTicks).results.length = 1 ∧
    reduceFinalSpeed (runSampling shortRunTicks).results = none ∧
    run_load testClient 1 shortRunTicks = none ∧
    download testClient shortRunTicks = none :=
  ⟨by unfold ValidTicks; decide, by decide, by rfl, by rfl, by rfl⟩

/-- C6: a load run of either direction that completes its full window with
exactly 28 collected samples stores, as final speed, the arithmetic mean of
the last 20 recorded samples (the first 8 are dropped) — in `upload` for an
upload run (`load = 0`) and in `download` for a download run. -/
theorem C6_full_window_mean (c : SpeedtestNetTcpClient) (load : ℕ)
    (ticks : List Tick) (c' : SpeedtestNetTcpClient) (r : Except String Bool)
    (hlen : ticks.length = 28)
    (h : run_load c load ticks = some (c', r)) :
    (runSampling ticks).results.length = 28 ∧
    ((runSampling ticks).results.drop 8).length = 20 ∧
    (load = 0 → c'.upload = ((runSampling ticks).results.drop 8).sum / 20) ∧
    (load ≠ 0 → c'.download = ((runSampling ticks).results.drop 8).sum / 20) := by
  have hrl : (runSampling ticks).results.length = 28 := by
    rw [runSampling_length, hlen]
  obtain ⟨fs, hred, hr, hc'⟩ := run_load_eq c load ticks c' r h
  rw [reduceFinalSpeed, hrl, if_neg (by omega)] at hred
  obtain rfl := Option.some.inj hred
  refine ⟨hrl, ?_, ?_, ?_⟩
  · rw [List.length_drop, hrl]
  · intro h0
    subst h0
    rw [hc']
  · intro hne
    rcases load with _ | n
    · exact absurd rfl hne
    · rw [hc']; rfl

/-- A full 14 s window of 28 ticks during which no byte ever moves. -/
def fullWindowTicks : List Tick := List.replicate 28 (Tick.mk 500000 0)

/-- The client a download run over `fullWindowTicks` produces. -/
def fullWindowClient : SpeedtestNetTcpClient :=
  { testClient with download := finalSpeedOf fullWindowTicks, download_status := "失败" }

/-- The client an upload run over `fullWindowTicks` produces. -/
def fullWindowUpClient : SpeedtestNetTcpClient :=
  { testClient with upload := finalSpeedOf fullWindowTicks, upload_status := "失败" }

/-- Witness for C6 on concrete full-window runs of both directions. -/
theorem C6_witness :
    (runSampling fullWindowTicks).results.length = 28 ∧
    ((runSampling fullWindowTicks).results.drop 8).length = 20 ∧
    fullWindowUpClient.upload
      = ((runSampling fullWindowTicks).results.drop 8).sum / 20 ∧
    fullWindowClient.download
      = ((runSampling fullWindowTicks).results.drop 8).sum / 20 :=
  have hup := C6_full_window_mean testClient 0 fullWindowTicks fullWindowUpClient
    (Except.ok true) (by rfl) (by rfl)
  have hdown := C6_full_window_mean testClient 1 fullWindowTicks fullWindowClient
    (Except.ok true) (by rfl) (by rfl)
  ⟨hup.1, hup.2.1, hup.2.2.1 rfl, hdown.2.2.2 (by decide)⟩

/-! ## Ping claims -/

/-- The minimum `ping` actually ends up with: the minimum over the non-zero
samples, floored at the loop's initial value `ping_min = 10000000`. -/
def pingMinFloor (attempts : List PingAttempt) : ℕ :=
  min 10000000 (minNonZero (pingSamples attempts))

theorem jitter_foldl (m : ℕ) (l : List ℕ) :
    ∀ acc : ℕ,
      l.foldl (fun acc p => if 0 < p then acc + (p - m) else acc) acc
        = acc + ((l.filter (fun p => 0 < p)).map (fun p => p - m)).sum := by
  induction l with
  | nil => intro acc; simp
  | cons p l ih =>
    intro acc
    by_cases hp : 0 < p
    · rw [List.foldl_cons, if_pos hp, ih, List.filter_cons_of_pos (by simpa using hp)]
      simp [Nat.add_assoc]
    · rw [List.foldl_cons, if_neg hp, ih, List.filter_cons_of_neg (by simpa using hp)]

theorem foldl_min_le_seed (l : List ℕ) : ∀ a : ℕ, l.foldl min a ≤ a := by
  induction l with
  | nil => intro a; exact Nat.le_refl a
  | cons b l ih =>
    intro a
    exact Nat.le_trans (ih (min a b)) (Nat.min_le_left a b)

theorem foldl_min_le_mem (l : List ℕ) :
    ∀ (a x : ℕ), x ∈ l → l.foldl min a ≤ x := by
  induction l with
  | nil => intro a x hx; exact absurd hx (List.not_mem_nil x)
  | cons b l ih =>
    intro a x hx
    rcases List.mem_cons.mp hx with rfl | hx
    · exact Nat.le_trans (foldl_min_le_seed l (min a x)) (Nat.min_le_right a x)
    · exact ih (min a b) x hx

/-- `minNonZero` really is a lower bound of every non-zero sample. -/
theorem minNonZero_le (samples : List ℕ) (s : ℕ) (hs : s ∈ samples) (hpos : 0 < s) :
    minNonZero samples ≤ s := by
  have hmem : s ∈ samples.filter (fun p => 0 < p) :=
    List.mem_filter.mpr ⟨hs, by simpa using hpos⟩
  rw [minNonZero]
  cases hf : samples.filter (fun p => 0 < p) with
  | nil => rw [hf] at hmem; exact absurd hmem (List.not_mem_nil s)
  | cons p rest =>
    rw [hf] at hmem
    rcases List.mem_cons.mp hmem with rfl | hmem
    · exact foldl_min_le_seed rest s
    · exact foldl_min_le_mem rest p s hmem

/-- The pings array the loop fills is exactly the samples list. -/
theorem pingScan_pings (attempts : List PingAttempt) :
    (attempts.foldl pingStep { pings := [], ping_min := 10000000 }).pings
      = pingSamples attempts := by
  have h := (pingScan_foldl attempts { pings := [], ping_min := 10000000 }).1
  simpa using h

/-- Six attempts, the first of which connects after 10 000 001 µs — one
microsecond above the loop's initial `ping_min`. -/
def overMinAttempts : List PingAttempt :=
  [PingAttempt.mk true 10000001, PingAttempt.mk false 0, PingAttempt.mk false 0,
   PingAttempt.mk false 0, PingAttempt.mk false 0, PingAttempt.mk false 0]

/-- C4 counterexample: with one non-zero sample of 10 000 001 µs, the
minimum over the non-zero samples is 10 000 001, but the code's `ping_min`
stays at its initial value 10 000 000, so the reported latency is
10000000/1000 and not (min over non-zero samples)/1000, and the reported
jitter is 1/5000 instead of the claim's 0. -/
theorem C4_counterexample :
    minNonZero (pingSamples overMinAttempts) = 10000001 ∧
    (ping testClient overMinAttempts).1.latency = (10000000 : ℚ) / 1000 ∧
    (10000000 : ℚ) / 1000 ≠ ((minNonZero (pingSamples overMinAttempts) : ℚ)) / 1000 ∧
    (ping testClient overMinAttempts).1.jitter = (1 : ℚ) / 5000 ∧
    (((((pingSamples overMinAttempts).filter (fun p => 0 < p)).map
        (fun p => p - minNonZero (pingSamples overMinAttempts))).sum : ℕ) : ℚ) / 5000
      = 0 ∧
    (1 : ℚ) / 5000 ≠ 0 := by
  refine ⟨by decide, by rfl, ?_, by rfl, ?_, by norm_num⟩
  · rw [show minNonZero (pingSamples overMinAttempts) = 10000001 from by decide]
    norm_num
  · rw [show ((((pingSamples overMinAttempts).filter (fun p => 0 < p)).map
        (fun p => p - minNonZero (pingSamples overMinAttempts))).sum : ℕ) = 0
      from by decide]
    norm_num

/-- C4 amended: for every run of `ping` with at least one non-zero sample,
the reported latency is `min(10000000, min over non-zero samples) / 1000`,
the reported jitter is the sum over non-zero samples of
`(sample - that floored minimum)`, divided by 5000; the floored minimum is a
lower bound of every non-zero sample, and the jitter is nonnegative. -/
theorem C4_amended_ping_statistics (c : SpeedtestNetTcpClient)
    (attempts : List PingAttempt) (h6 : attempts.length = 6)
    (h : ∃ s ∈ pingSamples attempts, 0 < s) :
    (ping c attempts).2 = true ∧
    (ping c attempts).1.latency = (pingMinFloor attempts : ℚ) / 1000 ∧
    (ping c attempts).1.jitter
      = (((((pingSamples attempts).filter (fun p => 0 < p)).map
          (fun p => p - pingMinFloor attempts)).sum : ℕ) : ℚ) / 5000 ∧
    (∀ s ∈ pingSamples attempts, 0 < s → pingMinFloor attempts ≤ s) ∧
    0 ≤ (ping c attempts).1.jitter := by
  have hpings := pingScan_pings attempts
  have hmin : (attempts.foldl pingStep { pings := [], ping_min := 10000000 }).ping_min
      = pingMinFloor attempts := pingScan_min_eq attempts h
  have hlen : (pingSamples attempts).length = 6 := by
    rw [pingSamples, List.length_map, h6]
  have hne : (attempts.foldl pingStep { pings := [], ping_min := 10000000 }).pings
      ≠ [0, 0, 0, 0, 0, 0] := by
    rw [hpings]
    intro hz
    obtain ⟨s, hs, hpos⟩ := h
    rw [hz] at hs
    simp at hs
    omega
  have hlb : ∀ s ∈ pingSamples attempts, 0 < s → pingMinFloor attempts ≤ s := by
    intro s hs hpos
    exact Nat.le_trans (Nat.min_le_right _ _) (minNonZero_le _ s hs hpos)
  rw [ping, if_neg hne]
  refine ⟨rfl, ?_, ?_, hlb, ?_⟩
  · rw [hmin]
  · rw [hmin, hpings, jitter_foldl, Nat.zero_add]
  · show (0 : ℚ) ≤ (_ : ℕ) / 5000
    positivity

/-- Six concrete mixed attempts: two successes (2000 µs and 3000 µs), four
failures. -/
def mixedAttempts : List PingAttempt :=
  [PingAttempt.mk true 2000, PingAttempt.mk false 0, PingAttempt.mk true 3000,
   PingAttempt.mk false 0, PingAttempt.mk false 0, PingAttempt.mk false 0]

/-- Witness for C4 amended on `mixedAttempts`. -/
theorem C4_witness :
    (ping testClient mixedAttempts).2 = true ∧
    (ping testClient mixedAttempts).1.latency
      = (pingMinFloor mixedAttempts : ℚ) / 1000 ∧
    (ping testClient mixedAttempts).1.jitter
      = (((((pingSamples mixedAttempts).filter (fun p => 0 < p)).map
          (fun p => p - pingMinFloor mixedAttempts)).sum : ℕ) : ℚ) / 5000 ∧
    (∀ s ∈ pingSamples mixedAttempts, 0 < s → pingMinFloor mixedAttempts ≤ s) ∧
    0 ≤ (ping testClient mixedAttempts).1.jitter :=
  C4_amended_ping_statistics testClient mixedAttempts (by decide) (by decide)

/-- C5: the total-failure branch of `ping` fires exactly when all six
recorded samples are zero (not when merely one is), and then the reported
result is `false` with latency and jitter both exactly 0. -/
theorem C5_all_zero_failure (c : SpeedtestNetTcpClient)
    (attempts : List PingAttempt) (h6 : attempts.length = 6) :
    ((ping c attempts).2 = false ↔ ∀ s ∈ pingSamples attempts, s = 0) ∧
    ((∀ s ∈ pingSamples attempts, s = 0) →
      ping c attempts = ({ c with latency := 0, jitter := 0 }, false)) := by
  have hpings := pingScan_pings attempts
  have hlen : (pingSamples attempts).length = 6 := by
    rw [pingSamples, List.length_map, h6]
  have hzchar : (pingSamples attempts) = [0, 0, 0, 0, 0, 0]
      ↔ ∀ s ∈ pingSamples attempts, s = 0 := by
    constructor
    · intro hz s hs
      rw [hz] at hs
      rcases hs with _ | ⟨_, hs⟩
      · rfl
      · rcases hs with _ | ⟨_, hs⟩
        · rfl
        · rcases hs with _ | ⟨_, hs⟩
          · rfl
          · rcases hs with _ | ⟨_, hs⟩
            · rfl
            · rcases hs with _ | ⟨_, hs⟩
              · rfl
              · rcases hs with _ | ⟨_, hs⟩
                · rfl
                · exact absurd hs (List.not_mem_nil s)
    · intro hall
      have h0 : [0, 0, 0, 0, 0, 0] = List.replicate 6 0 := by decide
      rw [h0]
      exact List.eq_replicate_iff.mpr ⟨hlen, hall⟩
  constructor
  · rw [ping]
    by_cases hz : (attempts.foldl pingStep { pings := [], ping_min := 10000000 }).pings
        = [0, 0, 0, 0, 0, 0]
    · rw [if_pos hz]
      rw [hpings] at hz
      exact ⟨fun _ => hzchar.mp hz, fun _ => rfl⟩
    · rw [if_neg hz]
      rw [hpings] at hz
      exact ⟨fun hfalse => absurd hfalse (by simp), fun hall => absurd (hzchar.mpr hall) hz⟩
  · intro hall
    have hz : (attempts.foldl pingStep { pings := [], ping_min := 10000000 }).pings
        = [0, 0, 0, 0, 0, 0] := by rw [hpings]; exact hzchar.mpr hall
    rw [ping, if_pos hz]

/-- Six failed attempts. -/
def allFailAttempts : List PingAttempt := List.replicate 6 (PingAttempt.mk false 0)

/-- Witness for C5 on six failed attempts. -/
theorem C5_witness :
    (((ping testClient allFailAttempts).2 = false
        ↔ ∀ s ∈ pingSamples allFailAttempts, s = 0) ∧
      ((∀ s ∈ pingSamples allFailAttempts, s = 0) →
        ping testClient allFailAttempts
          = ({ testClient with latency := 0, jitter := 0 }, false))) ∧
    (∀ s ∈ pingSamples allFailAttempts, s = 0) :=
  ⟨C5_all_zero_failure testClient allFailAttempts (by decide), by decide⟩

/-- C10: a ping attempt whose connection succeeds with a measured elapsed
time of 0 µs is indistinguishable from a failed attempt: the sample is 0,
`ping` behaves identically whether that slot was a 0-elapsed success or a
connection failure, and six 0-elapsed successes make `ping` report total
failure with latency and jitter 0. -/
theorem C10_zero_elapsed_success_is_failure :
    (∀ e, request_tcp_ping (PingAttempt.mk true 0)
        = request_tcp_ping (PingAttempt.mk false e)) ∧
    (∀ (c : SpeedtestNetTcpClient) (pre post : List PingAttempt) (e : ℕ),
      ping c (pre ++ PingAttempt.mk true 0 :: post)
        = ping c (pre ++ PingAttempt.mk false e :: post)) ∧
    (∀ c : SpeedtestNetTcpClient,
      ping c (List.replicate 6 (PingAttempt.mk true 0))
        = ({ c with latency := 0, jitter := 0 }, false)) := by
  have hstep : ∀ (st : PingScan) (e : ℕ),
      pingStep st (PingAttempt.mk true 0) = pingStep st (PingAttempt.mk false e) := by
    intro st e; rfl
  refine ⟨fun e => rfl, ?_, fun c => rfl⟩
  intro c pre post e
  have hfold :
      (pre ++ PingAttempt.mk true 0 :: post).foldl pingStep
          { pings := [], ping_min := 10000000 }
        = (pre ++ PingAttempt.mk false e :: post).foldl pingStep
          { pings := [], ping_min := 10000000 } := by
    rw [List.foldl_append, List.foldl_append, List.foldl_cons, List.foldl_cons, hstep]
  rw [ping, ping, hfold]

/-! ## Frame and return-value claims -/

/-- C8: `ping` writes only `latency` and `jitter` and computes them from the
attempts alone (so a second run overwrites rather than accumulates);
`run_load(0)` writes only the upload fields, `run_load(1)` only the download
fields, and the written values are functions of the tick sequence alone. -/
theorem C8_overwrite_and_frame :
    (∀ (c : SpeedtestNetTcpClient) (attempts : List PingAttempt),
      (ping c attempts).1.upload = c.upload ∧
      (ping c attempts).1.upload_status = c.upload_status ∧
      (ping c attempts).1.download = c.download ∧
      (ping c attempts).1.download_status = c.download_status) ∧
    (∀ (c₁ c₂ : SpeedtestNetTcpClient) (attempts : List PingAttempt),
      (ping c₁ attempts).1.latency = (ping c₂ attempts).1.latency ∧
      (ping c₁ attempts).1.jitter = (ping c₂ attempts).1.jitter ∧
      (ping c₁ attempts).2 = (ping c₂ attempts).2) ∧
    (∀ (c : SpeedtestNetTcpClient) (ticks : List Tick) (c' : SpeedtestNetTcpClient)
        (r : Except String Bool), run_load c 0 ticks = some (c', r) →
      c'.download = c.download ∧ c'.download_status = c.download_status ∧
      c'.latency = c.latency ∧ c'.jitter = c.jitter) ∧
    (∀ (c : SpeedtestNetTcpClient) (ticks : List Tick) (c' : SpeedtestNetTcpClient)
        (r : Except String Bool), run_load c 1 ticks = some (c', r) →
      c'.upload = c.upload ∧ c'.upload_status = c.upload_status ∧
      c'.latency = c.latency ∧ c'.jitter = c.jitter) ∧
    (∀ (c₁ c₂ : SpeedtestNetTcpClient) (ticks : List Tick)
        (c₁' c₂' : SpeedtestNetTcpClient) (r₁ r₂ : Except String Bool),
      run_load c₁ 0 ticks = some (c₁', r₁) → run_load c₂ 0 ticks = some (c₂', r₂) →
      c₁'.upload = c₂'.upload ∧ c₁'.upload_status = c₂'.upload_status) ∧
    (∀ (c₁ c₂ : SpeedtestNetTcpClient) (ticks : List Tick)
        (c₁' c₂' : SpeedtestNetTcpClient) (r₁ r₂ : Except String Bool),
      run_load c₁ 1 ticks = some (c₁', r₁) → run_load c₂ 1 ticks = some (c₂', r₂) →
      c₁'.download = c₂'.download ∧ c₁'.download_status = c₂'.download_status) := by
  refine ⟨?_, ?_, ?_, ?_, ?_, ?_⟩
  · intro c attempts
    rw [ping]
    by_cases hz : (attempts.foldl pingStep { pings := [], ping_min := 10000000 }).pings
        = [0, 0, 0, 0, 0, 0]
    · rw [if_pos hz]; exact ⟨rfl, rfl, rfl, rfl⟩
    · rw [if_neg hz]; exact ⟨rfl, rfl, rfl, rfl⟩
  · intro c₁ c₂ attempts
    rw [ping, ping]
    by_cases hz : (attempts.foldl pingStep { pings := [], ping_min := 10000000 }).pings
        = [0, 0, 0, 0, 0, 0]
    · rw [if_pos hz, if_pos hz]; exact ⟨rfl, rfl, rfl⟩
    · rw [if_neg hz, if_neg hz]; exact ⟨rfl, rfl, rfl⟩
  · intro c ticks c' r h
    obtain ⟨fs, hred, hr, hc'⟩ := run_load_eq c 0 ticks c' r h
    rw [hc']
    exact ⟨rfl, rfl, rfl, rfl⟩
  · intro c ticks c' r h
    obtain ⟨fs, hred, hr, hc'⟩ := run_load_eq c 1 ticks c' r h
    rw [hc']
    exact ⟨rfl, rfl, rfl, rfl⟩
  · intro c₁ c₂ ticks c₁' c₂' r₁ r₂ h₁ h₂
    obtain ⟨fs₁, hred₁, hr₁, hc₁⟩ := run_load_eq c₁ 0 ticks c₁' r₁ h₁
    obtain ⟨fs₂, hred₂, hr₂, hc₂⟩ := run_load_eq c₂ 0 ticks c₂' r₂ h₂
    obtain rfl : fs₁ = fs₂ := Option.some.inj (hred₁.symm.trans hred₂)
    rw [hc₁, hc₂]
    exact ⟨rfl, rfl⟩
  · intro c₁ c₂ ticks c₁' c₂' r₁ r₂ h₁ h₂
    obtain ⟨fs₁, hred₁, hr₁, hc₁⟩ := run_load_eq c₁ 1 ticks c₁' r₁ h₁
    obtain ⟨fs₂, hred₂, hr₂, hc₂⟩ := run_load_eq c₂ 1 ticks c₂' r₂ h₂
    obtain rfl : fs₁ = fs₂ := Option.some.inj (hred₁.symm.trans hred₂)
    rw [hc₁, hc₂]
    exact ⟨rfl, rfl⟩

/-- 20 healthy ticks of 700 ms moving 50 bytes each. -/
def c8Ticks : List Tick := List.replicate 20 (Tick.mk 700000 50)

/-- A client that already holds results from earlier operations. -/
def c8Before : SpeedtestNetTcpClient :=
  { testClient with upload := 123, upload_status := "断流", latency := 7, jitter := 5 }

/-- What an upload run over `c8Ticks` leaves of `c8Before`. -/
def c8After : SpeedtestNetTcpClient :=
  { c8Before with upload := finalSpeedOf c8Ticks, upload_status := "正常" }

/-- What an upload run over `c8Ticks` leaves of a fresh `testClient`. -/
def c8AfterFresh : SpeedtestNetTcpClient :=
  { testClient with upload := finalSpeedOf c8Ticks, upload_status := "正常" }

/-- Witness for C8: an upload run over a client with stale results writes
the same upload fields as over a fresh client (overwrite, not accumulate)
and leaves the other result fields untouched. -/
theorem C8_witness :
    (c8AfterFresh.upload = c8After.upload ∧
      c8AfterFresh.upload_status = c8After.upload_status) ∧
    (c8After.download = c8Before.download ∧
      c8After.download_status = c8Before.download_status ∧
      c8After.latency = c8Before.latency ∧ c8After.jitter = c8Before.jitter) :=
  ⟨C8_overwrite_and_frame.2.2.2.2.1 testClient c8Before c8Ticks c8AfterFresh c8After
      (Except.ok true) (Except.ok true) (by rfl) (by rfl),
   C8_overwrite_and_frame.2.2.1 c8Before c8Ticks c8After (Except.ok true) (by rfl)⟩

/-- C9: `run_load` has a single normal return, `Ok(true)`; consequently the
`Err(_) => false` arms of `download()` and `upload()` are unreachable and
both report `true` whenever they return. -/
theorem C9_load_returns_always_true :
    (∀ (c : SpeedtestNetTcpClient) (load : ℕ) (ticks : List Tick)
        (c' : SpeedtestNetTcpClient) (r : Except String Bool),
      run_load c load ticks = some (c', r) → r = Except.ok true) ∧
    (∀ (c : SpeedtestNetTcpClient) (ticks : List Tick)
        (p : SpeedtestNetTcpClient × Bool), download c ticks = some p → p.2 = true) ∧
    (∀ (c : SpeedtestNetTcpClient) (ticks : List Tick)
        (p : SpeedtestNetTcpClient × Bool), upload c ticks = some p → p.2 = true) := by
  have hok : ∀ (c : SpeedtestNetTcpClient) (load : ℕ) (ticks : List Tick)
      (c' : SpeedtestNetTcpClient) (r : Except String Bool),
      run_load c load ticks = some (c', r) → r = Except.ok true := by
    intro c load ticks c' r h
    obtain ⟨fs, hred, hr, hc'⟩ := run_load_eq c load ticks c' r h
    exact hr
  refine ⟨hok, ?_, ?_⟩
  · intro c ticks p h
    rw [download] at h
    cases hrl : run_load c 1 ticks with
    | none => rw [hrl] at h; cases h
    | some q =>
      rcases q with ⟨c', r⟩
      obtain rfl := hok c 1 ticks c' r hrl
      rw [hrl] at h
      obtain rfl := Option.some.inj h
      rfl
  · intro c ticks p h
    rw [upload] at h
    cases hrl : run_load c 0 ticks with
    | none => rw [hrl] at h; cases h
    | some q =>
      rcases q with ⟨c', r⟩
      obtain rfl := hok c 0 ticks c' r hrl
      rw [hrl] at h
      obtain rfl := Option.some.inj h
      rfl

/-- 20 ticks of 700 ms moving 30 bytes each. -/
def c9Ticks : List Tick := List.replicate 20 (Tick.mk 700000 30)

/-- What an upload run over `c9Ticks` leaves of a fresh client. -/
def c9After : SpeedtestNetTcpClient :=
  { testClient with upload := finalSpeedOf c9Ticks, upload_status := "正常" }

/-- Witness for C9: a concrete completed upload reports `true`. -/
theorem C9_witness : ((c9After, true) : SpeedtestNetTcpClient × Bool).2 = true :=
  C9_load_returns_always_true.2.2 testClient c9Ticks (c9After, true) (by rfl)

end BimCore
